import Mathlib

/-!
Shallow embedding of the analytical pipeline in `src/data_processor.py` of the
Polymarket-Insights-Dashboard repository, together with theorems settling the
spec claims about it.

Modelling conventions:
* A pandas float64 cell is `Option ℚ`; `none` models NaN (the undefined
  sentinel), `some q` a real value.  Prices are exact rationals.
* `np.log` and `np.sqrt` are transcendental, so they are abstracted as explicit
  function parameters `rlog rsqrt : ℚ → ℚ`; every theorem about volatility is
  proved for an arbitrary choice of these functions (the claims under scrutiny
  do not depend on their values, only on where NaN appears).
* A DataFrame is a `Frame`: an ordered list of rows (date, yes-price, raw
  volume cell) plus presence flags for the date / `<id>_yes_price` /
  `<id>_volume` columns and an association list of named derived columns.
  A raw volume cell is numeric, non-numeric text, or NaN (`RawCell`).
* `pd.Series.rolling(window=W, min_periods=1)` over position `i` sees input
  positions `max (0, i-W+1) .. i`, embedded as `windowAt`.
* Sorting (`DataFrame.sort_values(by='date')` and the internal sort of
  `Series.quantile`) is embedded with `List.insertionSort`, a comparison sort;
  dates are integers (canonical calendar ordinals after `pd.to_datetime`).
* Python functions here never raise: totality of the Lean definitions models
  the "never raises" part of the error-handling contract.
-/

/-- The trailing window pandas `rolling(window, min_periods=1)` sees at
position `i`: input positions `max (0, i-window+1) .. i`. -/
def windowAt {α : Type} (xs : List α) (window i : ℕ) : List α :=
  (xs.take (i + 1)).drop (i + 1 - window)

/-- Arithmetic mean of a list of rationals (`sum / length`). -/
def listMean (xs : List ℚ) : ℚ := xs.sum / xs.length

/-- `calculate_moving_average` (src/data_processor.py lines 4-15):
empty input returns an empty series; otherwise
`price_series.rolling(window=window, min_periods=1).mean()`.  On a NaN-free
input with `min_periods=1` every output position is defined, hence `some`. -/
def calculate_moving_average (price_series : List ℚ) (window : ℕ) :
    List (Option ℚ) :=
  if price_series = [] then []
  else (List.range price_series.length).map fun i =>
    some (listMean (windowAt price_series window i))

/-- `calculate_price_change_percentage` (src/data_processor.py lines 17-27):
if the series is empty or shorter than `periods`, an all-NaN series of the
same length; otherwise `price_series.pct_change(periods=periods) * 100`,
i.e. NaN for `i < periods` and the fractional change
`(v[i] - v[i-periods]) / v[i-periods] * 100` for `i ≥ periods`.
(Division by a zero prior value is the rough edge the spec leaves open;
rational division-by-zero stands in for the float behaviour there.) -/
def calculate_price_change_percentage (price_series : List ℚ) (periods : ℕ) :
    List (Option ℚ) :=
  if price_series = [] ∨ price_series.length < periods then
    List.replicate price_series.length none
  else (List.range price_series.length).map fun i =>
    if i < periods then none
    else some ((price_series.getD i 0 - price_series.getD (i - periods) 0) /
      price_series.getD (i - periods) 0 * 100)

/-- `np.log(price_series / price_series.shift(1))` (src/data_processor.py
line 37): NaN at position 0 (shift introduces NaN, and log of NaN is NaN),
`log (v[i] / v[i-1])` at position `i ≥ 1`. -/
def log_returns (rlog : ℚ → ℚ) (price_series : List ℚ) : List (Option ℚ) :=
  match price_series with
  | [] => []
  | _ :: rest =>
    none :: List.zipWith (fun prev cur => some (rlog (cur / prev)))
      price_series rest

/-- `xs.rolling(window=window, min_periods=1).std()` (ddof = 1, the pandas
default): at each position, the sample standard deviation of the non-NaN
values in the trailing window; NaN when the window holds no value
(min_periods unmet) and NaN when it holds exactly one value (a sample
standard deviation with ddof = 1 of a single value is NaN). -/
def rollingStd (rsqrt : ℚ → ℚ) (xs : List (Option ℚ)) (window : ℕ) :
    List (Option ℚ) :=
  (List.range xs.length).map fun i =>
    let vals := (windowAt xs window i).filterMap id
    if vals.length < 1 then none
    else if vals.length < 2 then none
    else some (rsqrt
      ((vals.map fun x => (x - listMean vals) ^ 2).sum / ((vals.length : ℚ) - 1)))

/-- `calculate_volatility` (src/data_processor.py lines 29-39): an all-NaN
series of the input's length when the input is empty or shorter than
`window`; otherwise the rolling sample standard deviation of the log
returns, scaled by `sqrt window`. -/
def calculate_volatility (rlog rsqrt : ℚ → ℚ) (price_series : List ℚ)
    (window : ℕ) : List (Option ℚ) :=
  if price_series = [] ∨ price_series.length < window then
    List.replicate price_series.length none
  else
    (rollingStd rsqrt (log_returns rlog price_series) window).map
      (Option.map (· * rsqrt (window : ℚ)))

/-- A raw cell of the `<id>_volume` column: a numeric value, a non-numeric
text value, or a missing value (NaN). -/
inductive RawCell : Type where
  | num (q : ℚ)
  | text (s : String)
  | na
deriving DecidableEq

/-- `pd.to_numeric(·, errors='coerce')` on one cell: numeric values pass
through, non-numeric and missing values coerce to NaN. -/
def to_numeric : RawCell → Option ℚ
  | .num q => some q
  | .text _ => none
  | .na => none

/-- One row of the raw input DataFrame: date (canonical ordinal after
`pd.to_datetime`), yes-price, raw volume cell. -/
structure RawRow : Type where
  date : ℤ
  yesPrice : ℚ
  volume : RawCell
deriving DecidableEq

/-- A derived column: a float column (with NaN) or a boolean column. -/
inductive DCol : Type where
  | nums (xs : List (Option ℚ))
  | flags (bs : List Bool)
deriving DecidableEq

/-- A DataFrame as the orchestrator sees it: ordered rows, presence flags for
the `date`, `<id>_yes_price` and `<id>_volume` columns, and named derived
columns. -/
structure Frame : Type where
  rows : List RawRow
  hasDate : Bool
  hasPrice : Bool
  hasVolume : Bool
  derived : List (String × DCol)
deriving DecidableEq

/-- `pd.DataFrame()`: the empty frame returned for empty input. -/
def emptyFrame : Frame :=
  { rows := [], hasDate := false, hasPrice := false, hasVolume := false,
    derived := [] }

/-- `processed_df.sort_values(by='date')` (src/data_processor.py line 63). -/
def sortByDate (rows : List RawRow) : List RawRow :=
  List.insertionSort (fun a b => a.date ≤ b.date) rows

/-- `numeric_volume.quantile(0.80)` with pandas' default linear
interpolation: with `s` the ascending sort of the values and
`pos = 0.8 * (n - 1)`, interpolate between `s[⌊pos⌋]` and the next value.
The floor of `pos` is taken by natural division (`pos ≥ 0`). -/
def quantile80 (xs : List ℚ) : ℚ :=
  let s := List.insertionSort (· ≤ ·) xs
  let n := s.length
  let pos : ℚ := 4 * ((n : ℚ) - 1) / 5
  let lo : ℕ := 4 * (n - 1) / 5
  let hi : ℕ := min (lo + 1) (n - 1)
  s.getD lo 0 + (pos - (lo : ℚ)) * (s.getD hi 0 - s.getD lo 0)

/-- The row order after lines 60-65 of src/data_processor.py: sorted
ascending by date when a `date` column exists, the input order otherwise. -/
def sortedRows (historical_df : Frame) : List RawRow :=
  if historical_df.hasDate = true then sortByDate historical_df.rows
  else historical_df.rows

/-- `pd.to_numeric(processed_df[volume_col], errors='coerce').fillna(0)`
(src/data_processor.py line 81): every non-numeric or missing volume cell
becomes NaN and every NaN becomes 0. -/
def numeric_volume (historical_df : Frame) : List ℚ :=
  (sortedRows historical_df).map fun r => (to_numeric r.volume).getD 0

/-- The `high_volume_day` column (src/data_processor.py lines 78-88): when a
volume column exists and the coerced numeric volumes have more than one
distinct value, each day is flagged by strict exceedance of the
80th-percentile threshold; otherwise all flags are false. -/
def high_volume_flags (historical_df : Frame) : List Bool :=
  if historical_df.hasVolume = true then
    if 1 < (numeric_volume historical_df).dedup.length then
      (numeric_volume historical_df).map fun v =>
        decide (quantile80 (numeric_volume historical_df) < v)
    else List.replicate (sortedRows historical_df).length false
  else List.replicate (sortedRows historical_df).length false

/-- `process_market_data` (src/data_processor.py lines 42-90).
Branches, in source order: empty input returns `pd.DataFrame()`; a missing
`<market_id>_yes_price` column returns `historical_df` unchanged (line 56);
otherwise rows are sorted by date when a date column exists, the four price
statistics are attached under interpolated column names, and the
`high_volume_day` flags are attached. -/
def process_market_data (rlog rsqrt : ℚ → ℚ) (historical_df : Frame)
    (market_id : String) : Frame :=
  if historical_df.rows = [] then emptyFrame
  else if historical_df.hasPrice = false then historical_df
  else
    let prices := (sortedRows historical_df).map RawRow.yesPrice
    { historical_df with
      rows := sortedRows historical_df
      derived :=
        [(market_id ++ "_yes_price_7d_ma",
            DCol.nums (calculate_moving_average prices 7)),
         (market_id ++ "_yes_price_30d_ma",
            DCol.nums (calculate_moving_average prices 30)),
         (market_id ++ "_yes_price_1d_pct_change",
            DCol.nums (calculate_price_change_percentage prices 1)),
         (market_id ++ "_yes_price_14d_volatility",
            DCol.nums (calculate_volatility rlog rsqrt prices 14)),
         ("high_volume_day", DCol.flags (high_volume_flags historical_df))] }

/-- Strip the derived columns, keeping the raw columns: the raw part of an
enriched frame, used to re-derive from the same raw input. -/
def rawOf (f : Frame) : Frame := { f with derived := [] }

/-- A non-empty frame whose `<id>_yes_price` column is absent. -/
def missingPriceFrame : Frame :=
  { rows := [⟨0, 1, RawCell.num 5⟩], hasDate := true, hasPrice := false,
    hasVolume := true, derived := [] }

/-- A small complete two-day frame. -/
def sampleFrame : Frame :=
  { rows := [⟨0, 1, RawCell.num 10⟩, ⟨1, 2, RawCell.num 100⟩],
    hasDate := true, hasPrice := true, hasVolume := true, derived := [] }

/-- A five-day frame with volumes `[10, 10, 10, 10, 100]`. -/
def volumesFrame : Frame :=
  { rows := [⟨0, 1, RawCell.num 10⟩, ⟨1, 1, RawCell.num 10⟩,
      ⟨2, 1, RawCell.num 10⟩, ⟨3, 1, RawCell.num 10⟩,
      ⟨4, 1, RawCell.num 100⟩],
    hasDate := true, hasPrice := true, hasVolume := true, derived := [] }

/-- A frame whose volume column holds a missing cell next to a numeric one. -/
def naVolumeFrame : Frame :=
  { rows := [⟨0, 1, RawCell.na⟩, ⟨1, 1, RawCell.num 10⟩],
    hasDate := true, hasPrice := true, hasVolume := true, derived := [] }

/-- A two-day frame whose rows arrive in reverse date order. -/
def unsortedFrame : Frame :=
  { rows := [⟨1, 2, RawCell.num 1⟩, ⟨0, 1, RawCell.num 1⟩],
    hasDate := true, hasPrice := true, hasVolume := true, derived := [] }

instance : IsTotal RawRow fun a b => a.date ≤ b.date :=
  ⟨fun a b => le_total a.date b.date⟩

instance : IsTrans RawRow fun a b => a.date ≤ b.date :=
  ⟨fun _ _ _ h h' => le_trans h h'⟩

theorem sortByDate_sorted (rows : List RawRow) :
    List.Sorted (fun a b : RawRow => a.date ≤ b.date) (sortByDate rows) :=
  List.sorted_insertionSort _ rows

theorem sortByDate_idem (rows : List RawRow) :
    sortByDate (sortByDate rows) = sortByDate rows :=
  List.Sorted.insertionSort_eq (sortByDate_sorted rows)

theorem length_sortByDate (rows : List RawRow) :
    (sortByDate rows).length = rows.length :=
  List.length_insertionSort _ rows

theorem length_log_returns (rlog : ℚ → ℚ) (price_series : List ℚ) :
    (log_returns rlog price_series).length = price_series.length := by
  cases price_series with
  | nil => rfl
  | cons p rest => simp [log_returns]

theorem length_rollingStd (rsqrt : ℚ → ℚ) (xs : List (Option ℚ))
    (window : ℕ) : (rollingStd rsqrt xs window).length = xs.length := by
  simp [rollingStd]

/-- C2: for every window `W ≥ 1`, `calculate_moving_average` returns a
same-length sequence whose position `i` holds the arithmetic mean of input
positions `max (0, i-W+1) .. i` (a trailing window shrinking at the start);
for a non-empty input, position 0 equals input position 0, and an empty
input yields an empty output. -/
theorem moving_average_spec (price_series : List ℚ) (window : ℕ)
    (hW : 1 ≤ window) :
    (calculate_moving_average price_series window).length =
      price_series.length
    ∧ (∀ i, i < price_series.length →
        (calculate_moving_average price_series window)[i]? =
          some (some (((price_series.take (i + 1)).drop
              (i + 1 - window)).sum /
            (((price_series.take (i + 1)).drop (i + 1 - window)).length :
              ℚ))))
    ∧ (price_series ≠ [] →
        (calculate_moving_average price_series window)[0]? =
          some (some (price_series.getD 0 0)))
    ∧ calculate_moving_average [] window = [] := by
  refine ⟨?_, ?_, ?_, rfl⟩
  · by_cases hem : price_series = []
    · simp [calculate_moving_average, hem]
    · simp [calculate_moving_average, hem]
  · intro i hi
    have hem : price_series ≠ [] := by
      intro h
      rw [h] at hi
      simp at hi
    simp [calculate_moving_average, hem, windowAt, listMean,
      List.getElem?_map, List.getElem?_range hi]
  · intro hem
    obtain ⟨p, rest, rfl⟩ := List.exists_cons_of_ne_nil hem
    have h0 : 0 < (p :: rest).length := by simp
    have hsub : 1 - window = 0 := Nat.sub_eq_zero_of_le hW
    simp [calculate_moving_average, windowAt, listMean,
      List.getElem?_map, List.getElem?_range h0, hsub]

/-- C2 witness: the moving average of `[1, 2]` with window 1 has length 2
and starts with the first input value. -/
theorem moving_average_spec_w :
    (calculate_moving_average [(1 : ℚ), 2] 1).length = 2
    ∧ (calculate_moving_average [(1 : ℚ), 2] 1)[0]? = some (some 1) := by
  have h := moving_average_spec [(1 : ℚ), 2] 1 le_rfl
  refine ⟨by simpa using h.1, ?_⟩
  have h0 := h.2.2.1 (by simp)
  simpa using h0

/-- C3: for every period count `P ≥ 1`, `calculate_price_change_percentage`
returns a same-length sequence: all-undefined when the input is shorter
than `P`, else `(v[i] - v[i-P]) / v[i-P] * 100` at positions `i ≥ P` and
undefined below; concretely `[1/2, 1/2, 3/5]` with `P = 1` gives
`[undefined, 0, 20]`. -/
theorem pct_change_spec (price_series : List ℚ) (periods : ℕ)
    (hP : 1 ≤ periods) :
    (calculate_price_change_percentage price_series periods).length =
      price_series.length
    ∧ (price_series.length < periods →
        calculate_price_change_percentage price_series periods =
          List.replicate price_series.length none)
    ∧ (periods ≤ price_series.length → ∀ i, i < price_series.length →
        (calculate_price_change_percentage price_series periods)[i]? =
          some (if i < periods then none
            else some ((price_series.getD i 0 -
                price_series.getD (i - periods) 0) /
              price_series.getD (i - periods) 0 * 100)))
    ∧ calculate_price_change_percentage [(1 : ℚ)/2, 1/2, 3/5] 1 =
        [none, some 0, some 20] := by
  refine ⟨?_, ?_, ?_, ?_⟩
  · by_cases hg : price_series = [] ∨ price_series.length < periods
    · simp [calculate_price_change_percentage, hg]
    · simp [calculate_price_change_percentage, hg]
  · intro hlt
    have hg : price_series = [] ∨ price_series.length < periods :=
      Or.inr hlt
    simp [calculate_price_change_percentage, hg]
  · intro hle i hi
    have hne : ¬ (price_series = [] ∨ price_series.length < periods) := by
      push_neg
      constructor
      · intro h
        rw [h] at hle
        simp at hle
        omega
      · omega
    simp [calculate_price_change_percentage, hne, List.getElem?_map,
      List.getElem?_range hi]
  · have hthree : List.range 3 = [0, 1, 2] := by decide
    simp [calculate_price_change_percentage, hthree]
    norm_num

/-- C3 witness: the concrete percentage-change example evaluated through the
theorem. -/
theorem pct_change_spec_w :
    calculate_price_change_percentage [(1 : ℚ)/2, 1/2, 3/5] 1 =
      [none, some 0, some 20] :=
  (pct_change_spec [(1 : ℚ)/2, 1/2, 3/5] 1 le_rfl).2.2.2

theorem rollingStd_getElem (rsqrt : ℚ → ℚ) (xs : List (Option ℚ))
    (window i : ℕ) (hi : i < xs.length) :
    (rollingStd rsqrt xs window)[i]? = some (
      if ((windowAt xs window i).filterMap id).length < 1 then none
      else if ((windowAt xs window i).filterMap id).length < 2 then none
      else some (rsqrt (((((windowAt xs window i).filterMap id)).map fun x =>
          (x - listMean ((windowAt xs window i).filterMap id)) ^ 2).sum /
        ((((windowAt xs window i).filterMap id)).length - 1)))) := by
  simp [rollingStd, List.getElem?_map, List.getElem?_range hi]

/-- C4: `calculate_volatility` returns a same-length output, entirely
undefined when the input has fewer than `window` elements; otherwise
position `i` is the sample standard deviation (undefined below two defined
values) of the log returns in the trailing window `max (0, i-W+1) .. i`,
scaled by `sqrt window`. -/
theorem volatility_spec (rlog rsqrt : ℚ → ℚ) (price_series : List ℚ)
    (window : ℕ) :
    (calculate_volatility rlog rsqrt price_series window).length =
      price_series.length
    ∧ (price_series.length < window →
        calculate_volatility rlog rsqrt price_series window =
          List.replicate price_series.length none)
    ∧ (window ≤ price_series.length → ∀ i, i < price_series.length →
        (calculate_volatility rlog rsqrt price_series window)[i]? = some (
          if ((((log_returns rlog price_series).take (i + 1)).drop
              (i + 1 - window)).filterMap id).length < 2 then none
          else some (rsqrt ((((((log_returns rlog price_series).take
                (i + 1)).drop (i + 1 - window)).filterMap id).map fun x =>
              (x - ((((log_returns rlog price_series).take (i + 1)).drop
                  (i + 1 - window)).filterMap id).sum /
                (((((log_returns rlog price_series).take (i + 1)).drop
                  (i + 1 - window)).filterMap id).length : ℚ)) ^ 2).sum /
            (((((log_returns rlog price_series).take (i + 1)).drop
              (i + 1 - window)).filterMap id).length - 1)) *
            rsqrt (window : ℚ)))) := by
  refine ⟨?_, ?_, ?_⟩
  · by_cases hg : price_series = [] ∨ price_series.length < window
    · simp [calculate_volatility, hg]
    · simp [calculate_volatility, hg, length_rollingStd, length_log_returns]
  · intro hlt
    simp [calculate_volatility, Or.inr hlt]
  · intro hw i hi
    have hne : price_series ≠ [] := by
      intro h
      rw [h] at hi
      simp at hi
    have hg : ¬ (price_series = [] ∨ price_series.length < window) := by
      push_neg
      exact ⟨hne, hw⟩
    have hlr : i < (log_returns rlog price_series).length := by
      rw [length_log_returns]
      exact hi
    rw [calculate_volatility, if_neg hg, List.getElem?_map,
      rollingStd_getElem rsqrt (log_returns rlog price_series) window i hlr]
    simp only [windowAt, listMean]
    by_cases h2 :
        ((((log_returns rlog price_series).take (i + 1)).drop
          (i + 1 - window)).filterMap id).length < 2
    · by_cases h1 :
          ((((log_returns rlog price_series).take (i + 1)).drop
            (i + 1 - window)).filterMap id).length < 1
      · simp [h1, h2]
      · simp [h1, h2]
    · have h1 : ¬ ((((log_returns rlog price_series).take (i + 1)).drop
          (i + 1 - window)).filterMap id).length < 1 := by omega
      simp [h1, h2]

/-- C4 witness: with window 14 and only ten observations, every volatility
position is undefined. -/
theorem volatility_spec_w :
    calculate_volatility id id [(1 : ℚ), 1, 1, 1, 1, 1, 1, 1, 1, 1] 14 =
      List.replicate 10 none := by
  have h := (volatility_spec id id
    [(1 : ℚ), 1, 1, 1, 1, 1, 1, 1, 1, 1] 14).2.1 (by simp)
  simpa using h

/-- C9: for every window `W ≥ 2` and input of length at least `W`, the
volatility output is undefined at position 1 as well as position 0: the
window at position 1 holds exactly one defined log return, and a sample
standard deviation (ddof = 1) of a single value is undefined. -/
theorem volatility_undefined_at_one (rlog rsqrt : ℚ → ℚ)
    (price_series : List ℚ) (window : ℕ) (hW : 2 ≤ window)
    (hlen : window ≤ price_series.length) :
    (calculate_volatility rlog rsqrt price_series window)[0]? = some none
    ∧ (calculate_volatility rlog rsqrt price_series window)[1]? =
        some none := by
  have h2 : 2 ≤ price_series.length := le_trans hW hlen
  have hne : price_series ≠ [] := by
    intro h
    rw [h] at h2
    simp at h2
  obtain ⟨a, rest, rfl⟩ := List.exists_cons_of_ne_nil hne
  have hne2 : rest ≠ [] := by
    intro h
    rw [h] at h2
    simp at h2
  obtain ⟨b, t, rfl⟩ := List.exists_cons_of_ne_nil hne2
  have hg : ¬ ((a :: b :: t : List ℚ) = [] ∨
      (a :: b :: t : List ℚ).length < window) := by
    push_neg
    exact ⟨List.cons_ne_nil _ _, hlen⟩
  have hlr0 : 0 < (log_returns rlog (a :: b :: t)).length := by
    rw [length_log_returns]
    simp
  have hlr1 : 1 < (log_returns rlog (a :: b :: t)).length := by
    rw [length_log_returns]
    simp
  have h10 : 1 - window = 0 := by omega
  have h20 : 2 - window = 0 := by omega
  have w0 : windowAt (log_returns rlog (a :: b :: t)) window 0 = [none] := by
    simp [windowAt, log_returns, h10]
  have w1 : windowAt (log_returns rlog (a :: b :: t)) window 1 =
      [none, some (rlog (b / a))] := by
    simp [windowAt, log_returns, h20, List.take_succ_cons]
  constructor
  · rw [calculate_volatility, if_neg hg, List.getElem?_map,
      rollingStd_getElem rsqrt (log_returns rlog (a :: b :: t)) window 0 hlr0,
      w0]
    simp
  · rw [calculate_volatility, if_neg hg, List.getElem?_map,
      rollingStd_getElem rsqrt (log_returns rlog (a :: b :: t)) window 1 hlr1,
      w1]
    simp

/-- C9 witness: window 2 on the two-point series `[1, 2]`. -/
theorem volatility_undefined_at_one_w :
    (calculate_volatility id id [(1 : ℚ), 2] 2)[0]? = some none
    ∧ (calculate_volatility id id [(1 : ℚ), 2] 2)[1]? = some none :=
  volatility_undefined_at_one id id [(1 : ℚ), 2] 2 le_rfl (by simp)

/-- C1 counterexample: a non-empty frame lacking the required price column
is returned by `process_market_data` with its row intact — the result is not
a zero-row table (src/data_processor.py line 56 returns `historical_df`,
not `pd.DataFrame()`). -/
theorem missing_price_result_not_empty :
    ¬ ((process_market_data id id missingPriceFrame "m").rows = []) := by
  decide

/-- C1 (amended): an empty input yields the empty frame; a non-empty input
lacking the required price column is returned unchanged (no derived
columns added), not as an empty result; totality of the definition models
that neither case raises. -/
theorem empty_or_missing_price_behaviour (rlog rsqrt : ℚ → ℚ)
    (historical_df : Frame) (market_id : String) :
    (historical_df.rows = [] →
      process_market_data rlog rsqrt historical_df market_id = emptyFrame)
    ∧ (historical_df.rows ≠ [] → historical_df.hasPrice = false →
      process_market_data rlog rsqrt historical_df market_id =
        historical_df) := by
  constructor
  · intro h
    simp [process_market_data, h]
  · intro h hp
    simp [process_market_data, h, hp]

/-- C1 witness: the amended behaviour evaluated on the empty frame and on a
concrete frame missing the price column. -/
theorem empty_or_missing_price_behaviour_w :
    process_market_data id id emptyFrame "m" = emptyFrame
    ∧ process_market_data id id missingPriceFrame "m" =
        missingPriceFrame := by
  constructor
  · exact (empty_or_missing_price_behaviour id id emptyFrame "m").1 rfl
  · exact (empty_or_missing_price_behaviour id id missingPriceFrame "m").2
      (by decide) rfl

/-- C8: for every non-empty input holding the price column, the enriched
result's derived columns are named exactly `<id>_yes_price_7d_ma`,
`<id>_yes_price_30d_ma`, `<id>_yes_price_1d_pct_change`,
`<id>_yes_price_14d_volatility` and `high_volume_day`. -/
theorem derived_column_names (rlog rsqrt : ℚ → ℚ) (historical_df : Frame)
    (market_id : String) (hne : historical_df.rows ≠ [])
    (hp : historical_df.hasPrice = true) :
    (process_market_data rlog rsqrt historical_df market_id).derived.map
        Prod.fst =
      [market_id ++ "_yes_price_7d_ma", market_id ++ "_yes_price_30d_ma",
       market_id ++ "_yes_price_1d_pct_change",
       market_id ++ "_yes_price_14d_volatility", "high_volume_day"] := by
  simp [process_market_data, hne, hp]

/-- C8 witness: the five derived column names on a concrete two-day frame
for market identifier `m`. -/
theorem derived_column_names_w :
    (process_market_data id id sampleFrame "m").derived.map Prod.fst =
      ["m_yes_price_7d_ma", "m_yes_price_30d_ma", "m_yes_price_1d_pct_change",
       "m_yes_price_14d_volatility", "high_volume_day"] := by
  have h := derived_column_names id id sampleFrame "m" (by decide) rfl
  simpa using h

/-- C5: with a volume column holding more than one distinct (coerced)
value, `high_volume_day` is true exactly for days whose volume strictly
exceeds the 80th-percentile linear-interpolation threshold over the full
series (ties false); with the column absent or the values constant, every
flag is false. -/
theorem high_volume_flag_spec (rlog rsqrt : ℚ → ℚ) (historical_df : Frame)
    (market_id : String) (hne : historical_df.rows ≠ [])
    (hp : historical_df.hasPrice = true) :
    (historical_df.hasVolume = true →
      1 < (numeric_volume historical_df).dedup.length →
      (process_market_data rlog rsqrt historical_df
          market_id).derived.getLast? =
        some ("high_volume_day", DCol.flags
          ((numeric_volume historical_df).map fun v =>
            decide (quantile80 (numeric_volume historical_df) < v))))
    ∧ (historical_df.hasVolume = false ∨
        (numeric_volume historical_df).dedup.length ≤ 1 →
      (process_market_data rlog rsqrt historical_df
          market_id).derived.getLast? =
        some ("high_volume_day", DCol.flags
          (List.replicate (sortedRows historical_df).length false))) := by
  constructor
  · intro hv hvar
    simp [process_market_data, hne, hp, high_volume_flags, hv, hvar]
  · intro hcase
    rcases hcase with hv | hconst
    · simp [process_market_data, hne, hp, high_volume_flags, hv]
    · have hnlt : ¬ 1 < (numeric_volume historical_df).dedup.length :=
        not_lt.mpr hconst
      by_cases hv : historical_df.hasVolume = true
      · simp [process_market_data, hne, hp, high_volume_flags, hv, hnlt]
      · simp [process_market_data, hne, hp, high_volume_flags, hv]

/-- C5 witness: volumes `[10, 10, 10, 10, 100]` give threshold 28 and flag
exactly the day with volume 100; the four ties at 10 are false. -/
theorem high_volume_flag_spec_w :
    (process_market_data id id volumesFrame "m").derived.getLast? =
      some ("high_volume_day",
        DCol.flags [false, false, false, false, true]) := by
  have hnv : numeric_volume volumesFrame = [10, 10, 10, 10, 100] := by
    decide
  have h := (high_volume_flag_spec id id volumesFrame "m" (by decide)
    rfl).1 rfl (by rw [hnv]; decide)
  rw [h, hnv]
  have hq : quantile80 [(10 : ℚ), 10, 10, 10, 100] = 28 := by
    have hs : List.insertionSort (· ≤ ·) [(10 : ℚ), 10, 10, 10, 100] =
        [10, 10, 10, 10, 100] := by decide
    simp only [quantile80, hs]
    norm_num
  rw [hq]
  norm_num

/-- C10: the flag computation coerces every non-numeric volume cell to the
undefined sentinel and then fills every undefined entry with 0, so missing
or unparsable volumes take part in the percentile threshold and in the
comparison as zeros. -/
theorem volume_coercion_spec (rlog rsqrt : ℚ → ℚ) (historical_df : Frame)
    (market_id : String) (hne : historical_df.rows ≠ [])
    (hp : historical_df.hasPrice = true)
    (hv : historical_df.hasVolume = true) :
    (∀ s, to_numeric (RawCell.text s) = none)
    ∧ to_numeric RawCell.na = none
    ∧ numeric_volume historical_df =
        (sortedRows historical_df).map
          (fun r => (to_numeric r.volume).getD 0)
    ∧ (process_market_data rlog rsqrt historical_df
          market_id).derived.getLast? =
        some ("high_volume_day", DCol.flags
          (if 1 < (numeric_volume historical_df).dedup.length then
            (numeric_volume historical_df).map fun v =>
              decide (quantile80 (numeric_volume historical_df) < v)
          else List.replicate (sortedRows historical_df).length false)) := by
  refine ⟨fun s => rfl, rfl, rfl, ?_⟩
  by_cases hvar : 1 < (numeric_volume historical_df).dedup.length
  · simp [process_market_data, hne, hp, high_volume_flags, hv, hvar]
  · simp [process_market_data, hne, hp, high_volume_flags, hv, hvar]

/-- C10 witness: a missing volume cell next to the numeric volume 10
participates as 0 — the coerced series `[0, 10]` has two distinct values,
so the threshold (8) is computed and the flags come out `[false, true]`. -/
theorem volume_coercion_spec_w :
    (process_market_data id id naVolumeFrame "m").derived.getLast? =
      some ("high_volume_day", DCol.flags [false, true]) := by
  have hnv : numeric_volume naVolumeFrame = [0, 10] := by decide
  have h := (volume_coercion_spec id id naVolumeFrame "m" (by decide)
    rfl rfl).2.2.2
  rw [h, hnv]
  have hvar : (1 : ℕ) < ([(0 : ℚ), 10].dedup).length := by decide
  rw [if_pos hvar]
  have hq : quantile80 [(0 : ℚ), 10] = 8 := by
    have hs : List.insertionSort (· ≤ ·) [(0 : ℚ), 10] = [0, 10] := by
      decide
    simp only [quantile80, hs]
    norm_num
  rw [hq]
  norm_num

/-- C7: with a date column present, the enriched rows are sorted ascending
by date — out-of-order input is corrected, not rejected — and every derived
column is computed over the date-sorted price sequence. -/
theorem date_sorting_spec (rlog rsqrt : ℚ → ℚ) (historical_df : Frame)
    (market_id : String) (hne : historical_df.rows ≠ [])
    (hp : historical_df.hasPrice = true)
    (hd : historical_df.hasDate = true) :
    List.Sorted (fun a b : RawRow => a.date ≤ b.date)
      (process_market_data rlog rsqrt historical_df market_id).rows
    ∧ (process_market_data rlog rsqrt historical_df market_id).rows =
        sortByDate historical_df.rows
    ∧ (process_market_data rlog rsqrt historical_df market_id).derived =
        [(market_id ++ "_yes_price_7d_ma",
            DCol.nums (calculate_moving_average
              ((sortByDate historical_df.rows).map RawRow.yesPrice) 7)),
         (market_id ++ "_yes_price_30d_ma",
            DCol.nums (calculate_moving_average
              ((sortByDate historical_df.rows).map RawRow.yesPrice) 30)),
         (market_id ++ "_yes_price_1d_pct_change",
            DCol.nums (calculate_price_change_percentage
              ((sortByDate historical_df.rows).map RawRow.yesPrice) 1)),
         (market_id ++ "_yes_price_14d_volatility",
            DCol.nums (calculate_volatility rlog rsqrt
              ((sortByDate historical_df.rows).map RawRow.yesPrice) 14)),
         ("high_volume_day",
            DCol.flags (high_volume_flags historical_df))] := by
  have hrows : (process_market_data rlog rsqrt historical_df
      market_id).rows = sortByDate historical_df.rows := by
    simp [process_market_data, hne, hp, sortedRows, hd]
  refine ⟨?_, hrows, ?_⟩
  · rw [hrows]
    exact sortByDate_sorted historical_df.rows
  · simp [process_market_data, hne, hp, sortedRows, hd]

/-- C7 witness: rows arriving in reverse date order come out sorted by
date. -/
theorem date_sorting_spec_w :
    (process_market_data id id unsortedFrame "m").rows =
      [⟨0, 1, RawCell.num 1⟩, ⟨1, 2, RawCell.num 1⟩] := by
  have h := (date_sorting_spec id id unsortedFrame "m" (by decide)
    rfl rfl).2.1
  rw [h]
  decide

/-- C6: the orchestrator is a pure function of its input; re-deriving from
the raw columns of an already-enriched frame reproduces the identical
enriched frame (identical derived columns, no hidden state). -/
theorem reprocessing_idempotent (rlog rsqrt : ℚ → ℚ)
    (historical_df : Frame) (market_id : String)
    (hraw : historical_df.derived = []) :
    process_market_data rlog rsqrt
        (rawOf (process_market_data rlog rsqrt historical_df market_id))
        market_id =
      process_market_data rlog rsqrt historical_df market_id := by
  obtain ⟨rows, hd, hp, hv, der⟩ := historical_df
  simp only at hraw
  subst hraw
  by_cases h1 : rows = []
  · subst h1
    simp [process_market_data, rawOf, emptyFrame]
  by_cases h2 : hp = false
  · simp [process_market_data, h1, h2, rawOf]
  have hp' : hp = true := by
    revert h2
    cases hp <;> simp
  subst hp'
  by_cases hdt : hd = true
  · subst hdt
    have hidem := sortByDate_idem rows
    have hlen : sortByDate rows ≠ [] := by
      intro h
      apply h1
      have hl := length_sortByDate rows
      rw [h] at hl
      exact List.eq_nil_of_length_eq_zero hl.symm
    simp [process_market_data, rawOf, sortedRows, numeric_volume,
      high_volume_flags, h1, hlen, hidem]
  · have hdf : hd = false := by
      revert hdt
      cases hd <;> simp
    subst hdf
    simp [process_market_data, rawOf, sortedRows, numeric_volume,
      high_volume_flags, h1]

/-- C6 witness: re-enriching the raw part of the enriched sample frame
reproduces the enriched sample frame. -/
theorem reprocessing_idempotent_w :
    process_market_data id id
        (rawOf (process_market_data id id sampleFrame "m")) "m" =
      process_market_data id id sampleFrame "m" :=
  reprocessing_idempotent id id sampleFrame "m" rfl
